import Mathlib

/-!
Shallow embedding of the crypto-invaders arcade shooter (source files
`src/unnamed/part_000` — the full game with lives, power-ups and wave
respawning — and `src/unnamed/part_001`, the earlier variant with an
exhaustive edge check and no lives).  All pixel coordinates, speeds and
millisecond timestamps are modelled as rationals (`ℚ`), counters as `ℕ`,
lives as `ℤ` (a JS number decremented under a guard).  Randomized choices
(`Math.random` shuffles, `Phaser.Utils.Array.GetRandom`) are injected as
explicit parameters: a shuffled list constrained to be a permutation of the
list the code shuffles, and a pick index.
-/

namespace CryptoInvaders

/-- Game constants of `part_000` (lines 28-60). -/
def BULLET_SPEED : ℚ := 500

def ENEMY_BULLET_SPEED : ℚ := 200

def ENEMY_HORIZONTAL_SPEED : ℚ := 30

def ENEMY_DOWN_STEP : ℚ := 20

def ENEMY_SHOOT_INTERVAL : ℚ := 5000

def PLAYER_SHOOT_INTERVAL : ℚ := 750

def ENEMY_COLS : ℕ := 6

def ENEMY_SPACING : ℚ := 50

/-- `DIFFICULTY_ENEMY_SHOOT_PERCENTAGE = 0.1` (part_000 line 46). -/
def DIFFICULTY_ENEMY_SHOOT_PERCENTAGE : ℚ := 1/10

/-- `DIFFICULTY_ENEMY_SPEED_INCREASE = 0.5` (part_000 line 50). -/
def DIFFICULTY_ENEMY_SPEED_INCREASE : ℚ := 1/2

def DIFFICULTY_SUPER_ALIENS_INCREASE_AFTER_LINES : ℕ := 5

def POWERUP_SPAWN_AFTER_ROWS : ℕ := 10

def POWERUP_DURATION : ℚ := 10000

/-- Edge margin used by `handleEnemyMovement` in both variants
(`let edgeMargin = 30`). -/
def edgeMargin : ℚ := 30

/-- `this.minTimeBetweenRowShots = 800` (part_000 line 92). -/
def minTimeBetweenRowShots : ℚ := 800

/-- An enemy sprite of `part_000`/`part_001`: a Phaser physics image with the
custom properties set at spawn time (`isAlive`, `row`, `isSuperAlien`,
`lastShotTime`).  `isActive` is Phaser's `active` flag (false once
`destroy()` has run), `hasBody`/`bodyEnable` model `enemy.body` and
`enemy.body.enable`.  `width`/`height` are the texture dimensions and
`scaleX`/`scaleY` the sprite scale, so the displayed half width is
`width * scaleX / 2`. -/
structure Enemy where
  x : ℚ
  y : ℚ
  vx : ℚ
  vy : ℚ
  width : ℚ
  height : ℚ
  scaleX : ℚ
  scaleY : ℚ
  row : ℕ
  isAlive : Bool
  isActive : Bool
  isSuperAlien : Bool
  hasBody : Bool
  bodyEnable : Bool
  lastShotTime : ℚ
deriving DecidableEq

/-- Displayed half width of an enemy: `(enemy.width * enemy.scaleX) / 2`. -/
def halfWidth (e : Enemy) : ℚ := e.width * e.scaleX / 2

/-- Displayed half height of an enemy: `(enemy.height * enemy.scaleY) / 2`. -/
def halfHeight (e : Enemy) : ℚ := e.height * e.scaleY / 2

/-- Formation state shared by the movement logic: `this.enemyDirection`
(1 right, -1 left), `this.enemySpeed`, `this.enemies`. -/
structure MoveState where
  enemyDirection : ℤ
  enemySpeed : ℚ
  enemies : List Enemy
deriving DecidableEq

namespace Part000

/-- The alive members of one row, in array order: `part_000` lines 560-568
build `enemiesByRow` by pushing the alive enemies in iteration order, so the
per-row list is the alive-filtered enemy array restricted to that row. -/
def rowEnemiesOf (es : List Enemy) (r : ℕ) : List Enemy :=
  (es.filter (fun e => e.isAlive)).filter (fun e => e.row == r)

/-- The JS loop `for (enemy of rowEnemies) if (enemy.x > rightmost.x)
rightmost = enemy` as a fold (a later enemy replaces the accumulator only
when strictly larger in `x`). -/
def runRight (a : Enemy) (l : List Enemy) : Enemy :=
  l.foldl (fun acc f => if acc.x < f.x then f else acc) a

/-- The symmetric loop selecting the leftmost-by-`x` enemy
(strictly smaller `x` replaces the accumulator). -/
def runLeft (a : Enemy) (l : List Enemy) : Enemy :=
  l.foldl (fun acc f => if f.x < acc.x then f else acc) a

/-- Edge test on one row's member list, `part_000` lines 571-604: take the
row's leftmost/rightmost members (the loops start from `rowEnemies[0]`);
when moving right test `rightmost.x + rightmostHalfWidth >= sizes.width -
edgeMargin`, when moving left test `leftmost.x - leftmostHalfWidth <=
edgeMargin`; empty rows are skipped. -/
def rowEdgeTriggerAux (W : ℚ) (dir : ℤ) : List Enemy → Bool
  | [] => false
  | e0 :: rest =>
      let rm := runRight e0 (e0 :: rest)
      let lm := runLeft e0 (e0 :: rest)
      if dir = 1 then decide (W - edgeMargin ≤ rm.x + halfWidth rm)
      else if dir = -1 then decide (lm.x - halfWidth lm ≤ edgeMargin)
      else false

/-- Edge test of the row with index `r`. -/
def rowEdgeTrigger (W : ℚ) (dir : ℤ) (es : List Enemy) (r : ℕ) : Bool :=
  rowEdgeTriggerAux W dir (rowEnemiesOf es r)

/-- `shouldReverse`/`shouldMoveDown` of `part_000` lines 555-604: some row's
extremal member crossed the margin.  The JS loop over the object keys breaks
at the first triggering row; the resulting boolean is this existential. -/
def shouldReverse (W : ℚ) (dir : ℤ) (es : List Enemy) : Bool :=
  (((es.filter (fun e => e.isAlive)).map (·.row)).dedup).any
    (rowEdgeTrigger W dir es)

/-- Per-enemy part of the movement loop, `part_000` lines 612-635: alive
enemies step down by `ENEMY_DOWN_STEP` when the edge was hit (a discrete
position step applied before the velocity writes), then — when a physics
body exists — the body is (re-)enabled and the velocity is set to
`(direction * speed, 0)`.  Dead enemies are skipped. -/
def moveEnemy (down : Bool) (dir : ℤ) (speed : ℚ) (e : Enemy) : Enemy :=
  if e.isAlive then
    let e1 := { e with y := e.y + (if down then ENEMY_DOWN_STEP else 0) }
    if e1.hasBody then
      { e1 with bodyEnable := true, vx := (dir : ℚ) * speed, vy := 0 }
    else e1
  else e

/-- Whether this tick reverses (and steps down) the formation. -/
def reversal (W : ℚ) (s : MoveState) : Bool :=
  shouldReverse W s.enemyDirection s.enemies

/-- Direction after the (possible) flip `this.enemyDirection *= -1`. -/
def newDirection (W : ℚ) (s : MoveState) : ℤ :=
  if reversal W s then -s.enemyDirection else s.enemyDirection

/-- Speed after the (possible) increment
`this.enemySpeed += DIFFICULTY_ENEMY_SPEED_INCREASE`. -/
def newSpeed (W : ℚ) (s : MoveState) : ℚ :=
  if reversal W s then s.enemySpeed + DIFFICULTY_ENEMY_SPEED_INCREASE
  else s.enemySpeed

/-- `handleEnemyMovement` of `part_000` lines 552-636: no-op on an empty
enemy array; otherwise detect the edge, on detection flip the shared
direction and add `DIFFICULTY_ENEMY_SPEED_INCREASE` to the shared speed,
then run the per-enemy loop with the updated direction/speed. -/
def handleEnemyMovement (W : ℚ) (s : MoveState) : MoveState :=
  if s.enemies.isEmpty then s else
  { enemyDirection := newDirection W s, enemySpeed := newSpeed W s,
    enemies := s.enemies.map (moveEnemy (reversal W s) (newDirection W s) (newSpeed W s)) }

end Part000

namespace Part001

/-- `ENEMY_SPEED_INCREASE = 2` (part_001 line 20). -/
def ENEMY_SPEED_INCREASE : ℚ := 2

/-- Edge detection of `part_001` lines 366-382: the exhaustive check over
every alive enemy (`enemy.x + halfWidth >= width - margin` moving right,
`enemy.x - halfWidth <= margin` moving left). -/
def shouldReverse (W : ℚ) (dir : ℤ) (es : List Enemy) : Bool :=
  es.any (fun e => e.isAlive &&
    ((decide (dir = 1) && decide (W - edgeMargin ≤ e.x + halfWidth e)) ||
     (decide (dir = -1) && decide (e.x - halfWidth e ≤ edgeMargin))))

/-- Per-enemy movement of `part_001` lines 390-455: alive enemies step down
on an edge hit; when the body exists and is enabled, velocity is set to
`(direction * speed, 0)` and the vertical velocity forced to 0.  The body
position desync repair in the same block only rewrites `body.x`/`body.y`
from the sprite position and is not modelled separately. -/
def moveEnemy (down : Bool) (dir : ℤ) (speed : ℚ) (e : Enemy) : Enemy :=
  if e.isAlive then
    let e1 := { e with y := e.y + (if down then ENEMY_DOWN_STEP else 0) }
    if e1.hasBody && e1.bodyEnable then
      { e1 with vx := (dir : ℚ) * speed, vy := 0 }
    else e1
  else e

/-- Whether this tick reverses (and steps down) the formation. -/
def reversal (W : ℚ) (s : MoveState) : Bool :=
  shouldReverse W s.enemyDirection s.enemies

/-- Direction after the (possible) flip. -/
def newDirection (W : ℚ) (s : MoveState) : ℤ :=
  if reversal W s then -s.enemyDirection else s.enemyDirection

/-- Speed after the (possible) `ENEMY_SPEED_INCREASE` increment. -/
def newSpeed (W : ℚ) (s : MoveState) : ℚ :=
  if reversal W s then s.enemySpeed + ENEMY_SPEED_INCREASE else s.enemySpeed

/-- `handleEnemyMovement` of `part_001` lines 359-456. -/
def handleEnemyMovement (W : ℚ) (s : MoveState) : MoveState :=
  if s.enemies.isEmpty then s else
  { enemyDirection := newDirection W s, enemySpeed := newSpeed W s,
    enemies := s.enemies.map (moveEnemy (reversal W s) (newDirection W s) (newSpeed W s)) }

end Part001

/-! Player shooting and the power-up lifecycle (`part_000`).  Player bullets
are tracked by their y position (the only coordinate the cap, the physics
step and the off-screen cleanup read). -/

/-- The slice of scene state read and written by `handlePlayerShooting`
(part_000 lines 461-550), `cleanupBullets` (803-811), `collectPowerUp`
(354-366) and `checkPowerUpExpiration` (368-372).  `now` is `this.time.now`;
`powerUpOnField` models `this.powerUp && this.powerUp.active`;
`playerHalfHeight` is `(this.player.height * this.player.scaleY) / 2`. -/
structure PlayerState where
  now : ℚ
  playerShootTimer : ℚ
  playerDoubleShot : Bool
  powerUpEndTime : ℚ
  powerUpOnField : Bool
  playerBullets : List ℚ
  playerY : ℚ
  playerHalfHeight : ℚ
deriving DecidableEq

/-- Spawn y of a player bullet:
`this.player.y - (this.player.height * this.player.scaleY) / 2 - 10`. -/
def playerBulletSpawnY (s : PlayerState) : ℚ :=
  s.playerY - s.playerHalfHeight - 10

/-- Appending a freshly created bullet to the `playerBullets` group. -/
def spawnPlayerBullet (s : PlayerState) : PlayerState :=
  { s with playerBullets := s.playerBullets ++ [playerBulletSpawnY s] }

/-- `handlePlayerShooting`, part_000 lines 461-550: initialise the timer when
it is 0, fire once `PLAYER_SHOOT_INTERVAL` has elapsed; cap is 6 under
double shot (two side-by-side bullets, the second only if
`activeBullets + 1 < maxBullets`) and 3 otherwise. -/
def handlePlayerShooting (s : PlayerState) : PlayerState :=
  let s := if s.playerShootTimer = 0 then { s with playerShootTimer := s.now } else s
  if PLAYER_SHOOT_INTERVAL ≤ s.now - s.playerShootTimer then
    let s := { s with playerShootTimer := s.now }
    let maxBullets : ℕ := if s.playerDoubleShot then 6 else 3
    let activeBullets := s.playerBullets.length
    if s.playerDoubleShot then
      if activeBullets < maxBullets then
        let s := spawnPlayerBullet s
        if activeBullets + 1 < maxBullets then spawnPlayerBullet s else s
      else s
    else
      if activeBullets < maxBullets then spawnPlayerBullet s else s
  else s

/-- Player-bullet half of `cleanupBullets` (part_000 lines 805-811): destroy
every player bullet with `bullet.y < 0`. -/
def cleanupPlayerBullets (s : PlayerState) : PlayerState :=
  { s with playerBullets := s.playerBullets.filter (fun y => !decide (y < 0)) }

/-- `collectPowerUp` (part_000 lines 354-366): no-op unless a power-up is on
the field; otherwise destroy it, activate double shot and set the absolute
expiry `this.powerUpEndTime = this.time.now + POWERUP_DURATION`. -/
def collectPowerUp (s : PlayerState) : PlayerState :=
  if s.powerUpOnField then
    { s with powerUpOnField := false,
             playerDoubleShot := true,
             powerUpEndTime := s.now + POWERUP_DURATION }
  else s

/-- `checkPowerUpExpiration` (part_000 lines 368-372): one-shot comparison of
the clock against the absolute expiry. -/
def checkPowerUpExpiration (s : PlayerState) : PlayerState :=
  if s.playerDoubleShot ∧ s.powerUpEndTime ≤ s.now then
    { s with playerDoubleShot := false }
  else s

/-- The Arcade physics step between two `update()` calls: the clock advances
by `dt` milliseconds and every player bullet moves by its velocity
`-BULLET_SPEED` (pixels per second, hence `dt / 1000`). -/
def physicsAdvance (dt : ℚ) (s : PlayerState) : PlayerState :=
  { s with now := s.now + dt,
           playerBullets := s.playerBullets.map (fun y => y - BULLET_SPEED * dt / 1000) }

/-- One simulation tick restricted to the player-bullet/power-up subsystem,
in the order of `update()` (part_000 lines 431-442): physics, then
`handlePlayerShooting`, then `cleanupBullets`, then
`checkPowerUpExpiration`.  The omitted handlers of `update()` do not touch
player bullets or the double-shot flag outside of collision events. -/
def playerTick (dt : ℚ) (s : PlayerState) : PlayerState :=
  checkPowerUpExpiration (cleanupPlayerBullets (handlePlayerShooting (physicsAdvance dt s)))

/-! Enemy shooting (`part_000` lines 638-801).  Enemy bullets are tracked as
(x, y) pairs; the shuffle of the eligible list and the random pick of
`GetRandom` are injected parameters. -/

/-- The slice of scene state read and written by `handleEnemyShooting` and
`shootFromEnemy`.  `rowLastShotTime` is the `Map` row ↦ last shot time
(lookup defaults to 0, matching `get(row) || 0`); `rowShootResetAt` records
the pending `delayedCall` that clears `rowShooting`. -/
structure ShootState where
  now : ℚ
  enemyShootTimer : ℚ
  enemies : List Enemy
  enemyBullets : List (ℚ × ℚ)
  rowsCanShoot : Finset ℕ
  rowShooting : Option ℕ
  rowLastShotTime : List (ℕ × ℚ)
  rowShootResetAt : Option ℚ
deriving DecidableEq

/-- `this.rowLastShotTime.get(enemy.row) || 0`. -/
def rowLastShot (m : List (ℕ × ℚ)) (r : ℕ) : ℚ := (m.lookup r).getD 0

/-- `this.rowLastShotTime.set(row, currentTime)`: a later `set` shadows an
earlier entry under `lookup`. -/
def setRowLastShot (m : List (ℕ × ℚ)) (r : ℕ) (t : ℚ) : List (ℕ × ℚ) :=
  (r, t) :: m

/-- Appending a freshly created bullet to the `enemyBullets` group. -/
def addEnemyBullet (b : ℚ × ℚ) (s : ShootState) : ShootState :=
  { s with enemyBullets := s.enemyBullets ++ [b] }

/-- `shootFromEnemy` (part_000 lines 718-801): skip invalid shooters; a super
alien spawns a left bullet only while fewer than 28 enemy bullets exist
(reserving the slot of its pair) and then a right bullet while fewer than
29; a regular alien spawns one bullet while fewer than 29; finally the
shooter's row is removed from `rowsCanShoot`. -/
def shootFromEnemy (e : Enemy) (s : ShootState) : ShootState :=
  if !(e.isActive && e.isAlive) then s
  else
    let bulletSpawnY := e.y + halfHeight e + 5
    let s1 :=
      if e.isSuperAlien then
        let sA := if s.enemyBullets.length < 28 then
            addEnemyBullet (e.x - 10, bulletSpawnY) s else s
        if sA.enemyBullets.length < 29 then
          addEnemyBullet (e.x + 10, bulletSpawnY) sA else sA
      else
        if s.enemyBullets.length < 29 then
          addEnemyBullet (e.x, bulletSpawnY) s else s
    { s1 with rowsCanShoot := s1.rowsCanShoot.erase e.row }

/-- The volley-timer phase of `handleEnemyShooting` (part_000 lines 641-666):
initialise the timer when 0; once `ENEMY_SHOOT_INTERVAL` has elapsed, reset
`rowsCanShoot` to exactly the rows holding an alive enemy and clear the
`rowShooting` lock. -/
def volleyResetPhase (s : ShootState) : ShootState :=
  let s := if s.enemyShootTimer = 0 then
      { s with enemyShootTimer := s.now - ENEMY_SHOOT_INTERVAL + 1000 } else s
  if ENEMY_SHOOT_INTERVAL ≤ s.now - s.enemyShootTimer then
    { s with enemyShootTimer := s.now,
             rowsCanShoot := ((s.enemies.filter (fun e => e.isAlive)).map (·.row)).toFinset,
             rowShooting := none }
  else s

/-- The `enemiesReadyToShoot` filter (part_000 lines 672-685): alive, still
active, row currently allowed to shoot, and the row's last shot at least
`minTimeBetweenRowShots` ago. -/
def eligibleEnemies (s : ShootState) : List Enemy :=
  s.enemies.filter (fun e =>
    e.isAlive && e.isActive && decide (e.row ∈ s.rowsCanShoot) &&
    decide (minTimeBetweenRowShots ≤ s.now - rowLastShot s.rowLastShotTime e.row))

/-- `Math.max(1, Math.floor(len * DIFFICULTY_ENEMY_SHOOT_PERCENTAGE))`
(part_000 line 689).  The JS float product `len * 0.1` floors to `len / 10`
for every list length the game can produce. -/
def numShooters (n : ℕ) : ℕ :=
  max 1 (Nat.floor ((n : ℚ) * DIFFICULTY_ENEMY_SHOOT_PERCENTAGE))

/-- `handleEnemyShooting` (part_000 lines 638-716).  `shuffled` is the
Fisher-Yates shuffle of the eligible list (lines 693-697) and `pick` the
index drawn by `GetRandom` inside the retained prefix; the chosen enemy's
row takes the lock and its last-shot time, `shootFromEnemy` runs, and a
`delayedCall` to release the lock after `minTimeBetweenRowShots` is
scheduled. -/
def handleEnemyShooting (shuffled : List Enemy) (pick : ℕ) (s : ShootState) : ShootState :=
  if s.enemies.isEmpty then s else
  let s := volleyResetPhase s
  match s.rowShooting with
  | some _ => s
  | none =>
    let ready := eligibleEnemies s
    if ready.isEmpty then s
    else
      let pool := shuffled.take (numShooters ready.length)
      match pool[pick]? with
      | none => s
      | some chosen =>
          shootFromEnemy chosen
            { s with rowShooting := some chosen.row,
                     rowLastShotTime := setRowLastShot s.rowLastShotTime chosen.row s.now,
                     rowShootResetAt := some (s.now + minTimeBetweenRowShots) }

/-! Collision handlers, score, lives and game over (`part_000`). -/

/-- The slice of scene state read and written by `hitEnemy` (part_000 lines
1007-1042), `hitPlayer` (1044-1132) and `checkGameOver` (974-1001).
`playerPresent` models `this.player` being non-null, `hitResetAt` the
pending 500 ms `delayedCall` that clears `playerHitProcessing`.  The enemy
bullet destroyed by a hit is passed to the handlers as its `active` flag. -/
structure CollisionState where
  now : ℚ
  score : ℕ
  lives : ℤ
  gameActive : Bool
  playerPresent : Bool
  playerY : ℚ
  playerHeight : ℚ
  playerHitProcessing : Bool
  hitResetAt : Option ℚ
  enemies : List Enemy
  rowsCanShoot : Finset ℕ
deriving DecidableEq

/-- `hitEnemy` (part_000 lines 1007-1042): skip stale bullets or enemies;
destroy the bullet, destroy the enemy and splice it out of `this.enemies`,
drop the row from `rowsCanShoot` when no alive member remains, and add 7
(super) or 5 (regular) points. -/
def hitEnemy (bulletActive : Bool) (e : Enemy) (s : CollisionState) : CollisionState :=
  if !bulletActive then s
  else if !e.isActive then s
  else
    let enemies := s.enemies.erase e
    let rowHasAliveEnemies := enemies.any (fun o => o.isAlive && o.isActive && o.row == e.row)
    { s with enemies := enemies,
             rowsCanShoot := if rowHasAliveEnemies then s.rowsCanShoot
                             else s.rowsCanShoot.erase e.row,
             score := s.score + (if e.isSuperAlien then 7 else 5) }

/-- `hitPlayer` (part_000 lines 1044-1132): return while a hit is already
being processed, on a stale bullet, a missing player, or exhausted lives;
otherwise set `playerHitProcessing` before any mutation, decrement lives,
end the session once they reach 0, and schedule the 500 ms flag release.
The sprite re-adding and explosion effects are rendering only. -/
def hitPlayer (bulletActive : Bool) (s : CollisionState) : CollisionState :=
  if s.playerHitProcessing then s
  else if !bulletActive then s
  else if !s.playerPresent then s
  else if s.lives ≤ 0 then s
  else
    let s := { s with playerHitProcessing := true, lives := s.lives - 1 }
    let s := if s.lives ≤ 0 then { s with gameActive := false } else s
    { s with hitResetAt := some (s.now + 500) }

/-- The body of the 500 ms `delayedCall` scheduled by `hitPlayer`
(part_000 lines 1129-1131): clear the processing flag. -/
def hitProcessingRelease (s : CollisionState) : CollisionState :=
  { s with playerHitProcessing := false, hitResetAt := none }

/-- `checkGameOver` (part_000 lines 974-1001): the session ends when some
alive enemy's bottom edge reaches 10 pixels above the player's bottom edge,
independent of the remaining lives. -/
def checkGameOver (s : CollisionState) : CollisionState :=
  if !s.playerPresent then s
  else if s.enemies.any (fun e => e.isAlive && e.isActive &&
      decide (s.playerY + s.playerHeight / 2 - 10 ≤ e.y + halfHeight e)) then
    { s with gameActive := false }
  else s

/-- One session step among the operations of `part_000` that touch score,
lives, the session flag or the hit guard. -/
inductive SessionStep : CollisionState → CollisionState → Prop
  | hitEnemy (b : Bool) (e : Enemy) (s : CollisionState) : SessionStep s (hitEnemy b e s)
  | hitPlayer (b : Bool) (s : CollisionState) : SessionStep s (hitPlayer b s)
  | checkGameOver (s : CollisionState) : SessionStep s (checkGameOver s)
  | hitRelease (s : CollisionState) : SessionStep s (hitProcessingRelease s)

/-! Wave spawning (`part_000` lines 822-966): the super-alien quota, the row
generation and the power-up milestone bookkeeping. -/

/-- One enemy of a spawned row, `spawnEnemyRowCentered` (part_000 lines
263-300): column `col` sits at `startX + col * ENEMY_SPACING`, is a super
alien exactly when `col` is among the chosen super columns, and starts
alive with a zeroed, gravity-free body.  `dims` gives the texture size of
the regular/super sprite and `sc` the sprite scale (`scale * 0.75`). -/
def spawnedEnemyAt (dims : Bool → ℚ × ℚ) (sc : ℚ) (rowIndex : ℕ) (startX y : ℚ)
    (superCols : List ℕ) (col : ℕ) : Enemy :=
  let isSuper := decide (col ∈ superCols)
  { x := startX + (col : ℚ) * ENEMY_SPACING, y := y, vx := 0, vy := 0,
    width := (dims isSuper).1, height := (dims isSuper).2,
    scaleX := sc, scaleY := sc, row := rowIndex,
    isAlive := true, isActive := true, isSuperAlien := isSuper,
    hasBody := true, bodyEnable := true, lastShotTime := 0 }

/-- `spawnEnemyRowCentered` (part_000 lines 263-300): one enemy per column. -/
def spawnEnemyRowCentered (dims : Bool → ℚ × ℚ) (sc : ℚ) (rowIndex : ℕ)
    (startX y : ℚ) (superCols : List ℕ) : List Enemy :=
  (List.range ENEMY_COLS).map (spawnedEnemyAt dims sc rowIndex startX y superCols)

/-- Quota of super aliens for the next spawned row, part_000 line 897:
`1 + Math.floor(this.spawnedRowCount / DIFFICULTY_SUPER_ALIENS_INCREASE_AFTER_LINES)`. -/
def numSuperAliens (spawnedRowCount : ℕ) : ℕ :=
  1 + spawnedRowCount / DIFFICULTY_SUPER_ALIENS_INCREASE_AFTER_LINES

/-- Super-alien columns of the next row (part_000 lines 901-913): the first
`numSuperAliens` entries of the shuffled column list (the loop also stops at
`availableCols.length`, which `List.take` does as well). -/
def newRowSuperCols (spawnedRowCount : ℕ) (shuffledCols : List ℕ) : List ℕ :=
  shuffledCols.take (numSuperAliens spawnedRowCount)

/-- The spawn bookkeeping slice of scene state: `this.spawnedRowCount`,
`this.lastPowerUpSpawnRow`, `this.nextRowIndex`, whether a power-up is on
the field, and `rowsCanShoot`. -/
structure SpawnState where
  spawnedRowCount : ℕ
  lastPowerUpSpawnRow : ℕ
  nextRowIndex : ℕ
  powerUpOnField : Bool
  rowsCanShoot : Finset ℕ
deriving DecidableEq

/-- `spawnPowerUp` (part_000 lines 308-352) restricted to the lifecycle
state: return without spawning while a power-up is already on the field
(`if (this.powerUp && this.powerUp.active) return`), else create one. -/
def spawnPowerUp (s : SpawnState) : SpawnState :=
  if s.powerUpOnField then s else { s with powerUpOnField := true }

/-- The bookkeeping tail of `checkSpawnNewRow` after a row was spawned
(part_000 lines 918-933 and 964): increment `spawnedRowCount`; at every
`POWERUP_SPAWN_AFTER_ROWS` milestone not yet consumed call `spawnPowerUp`
and advance `lastPowerUpSpawnRow` unconditionally; register the new row as
able to shoot; increment `nextRowIndex`. -/
def afterRowSpawned (s : SpawnState) : SpawnState :=
  let s := { s with spawnedRowCount := s.spawnedRowCount + 1 }
  let s := if s.spawnedRowCount % POWERUP_SPAWN_AFTER_ROWS = 0 ∧
              s.spawnedRowCount ≠ s.lastPowerUpSpawnRow then
      { spawnPowerUp s with lastPowerUpSpawnRow := s.spawnedRowCount }
    else s
  let s := { s with rowsCanShoot := insert s.nextRowIndex s.rowsCanShoot }
  { s with nextRowIndex := s.nextRowIndex + 1 }

/-- Observation: the milestone for which the next `afterRowSpawned` step
would actually create a power-up (guard of lines 926-927 together with the
early return of `spawnPowerUp`), if any. -/
def spawnEventAt (s : SpawnState) : Option ℕ :=
  if (s.spawnedRowCount + 1) % POWERUP_SPAWN_AFTER_ROWS = 0 ∧
     s.spawnedRowCount + 1 ≠ s.lastPowerUpSpawnRow ∧
     s.powerUpOnField = false then
    some (s.spawnedRowCount + 1)
  else none

/-! Helper lemmas about the per-row extremal scan. -/

namespace Part000

theorem runRight_cons (a b : Enemy) (l : List Enemy) :
    runRight a (b :: l) = runRight (if a.x < b.x then b else a) l := rfl

theorem runLeft_cons (a b : Enemy) (l : List Enemy) :
    runLeft a (b :: l) = runLeft (if b.x < a.x then b else a) l := rfl

theorem runRight_mem (l : List Enemy) (a : Enemy) :
    runRight a l = a ∨ runRight a l ∈ l := by
  induction l generalizing a with
  | nil => exact Or.inl rfl
  | cons b l ih =>
      rw [runRight_cons]
      rcases ih (if a.x < b.x then b else a) with h | h
      · rw [h]
        by_cases hc : a.x < b.x
        · simp [hc]
        · simp [hc]
      · exact Or.inr (List.mem_cons_of_mem _ h)

theorem le_runRight (l : List Enemy) (a : Enemy) : a.x ≤ (runRight a l).x := by
  induction l generalizing a with
  | nil => exact le_refl _
  | cons b l ih =>
      rw [runRight_cons]
      refine le_trans ?_ (ih _)
      by_cases hc : a.x < b.x
      · simp [hc, le_of_lt hc]
      · simp [hc]

theorem mem_le_runRight (l : List Enemy) (a : Enemy) :
    ∀ f ∈ l, f.x ≤ (runRight a l).x := by
  induction l generalizing a with
  | nil => simp
  | cons b l ih =>
      intro f hf
      rw [runRight_cons]
      rcases List.mem_cons.mp hf with hfb | hf
      · rw [hfb]
        refine le_trans ?_ (le_runRight l _)
        by_cases hc : a.x < b.x
        · simp [hc]
        · simp [hc, le_of_not_lt hc]
      · exact ih _ f hf

theorem runLeft_mem (l : List Enemy) (a : Enemy) :
    runLeft a l = a ∨ runLeft a l ∈ l := by
  induction l generalizing a with
  | nil => exact Or.inl rfl
  | cons b l ih =>
      rw [runLeft_cons]
      rcases ih (if b.x < a.x then b else a) with h | h
      · rw [h]
        by_cases hc : b.x < a.x
        · simp [hc]
        · simp [hc]
      · exact Or.inr (List.mem_cons_of_mem _ h)

theorem runLeft_le (l : List Enemy) (a : Enemy) : (runLeft a l).x ≤ a.x := by
  induction l generalizing a with
  | nil => exact le_refl _
  | cons b l ih =>
      rw [runLeft_cons]
      refine le_trans (ih _) ?_
      by_cases hc : b.x < a.x
      · simp [hc, le_of_lt hc]
      · simp [hc]

theorem runLeft_le_mem (l : List Enemy) (a : Enemy) :
    ∀ f ∈ l, (runLeft a l).x ≤ f.x := by
  induction l generalizing a with
  | nil => simp
  | cons b l ih =>
      intro f hf
      rw [runLeft_cons]
      rcases List.mem_cons.mp hf with hfb | hf
      · rw [hfb]
        refine le_trans (runLeft_le l _) ?_
        by_cases hc : b.x < a.x
        · simp [hc]
        · simp [hc, le_of_not_lt hc]
      · exact ih _ f hf

theorem mem_rowEnemiesOf {es : List Enemy} {r : ℕ} {f : Enemy} :
    f ∈ rowEnemiesOf es r ↔ f ∈ es ∧ f.isAlive = true ∧ f.row = r := by
  simp only [rowEnemiesOf, List.mem_filter, beq_iff_eq]
  tauto

/-- The per-row extremal check only ever tests alive enemies, so whenever it
signals, the exhaustive check over every alive enemy signals as well. -/
theorem shouldReverse_to_exhaustive (W : ℚ) (dir : ℤ) (es : List Enemy)
    (h : Part000.shouldReverse W dir es = true) :
    Part001.shouldReverse W dir es = true := by
  obtain ⟨r, _, htrig⟩ := List.any_eq_true.mp h
  unfold rowEdgeTrigger at htrig
  cases hrow : rowEnemiesOf es r with
  | nil => rw [hrow] at htrig; exact absurd htrig (by simp [rowEdgeTriggerAux])
  | cons e0 rest =>
      rw [hrow] at htrig
      simp only [rowEdgeTriggerAux] at htrig
      by_cases hd1 : dir = 1
      · rw [if_pos hd1] at htrig
        replace htrig := of_decide_eq_true htrig
        have hmem : runRight e0 (e0 :: rest) ∈ rowEnemiesOf es r := by
          rw [hrow]
          rcases runRight_mem (e0 :: rest) e0 with h' | h'
          · rw [h']; exact List.mem_cons_self _ _
          · exact h'
        obtain ⟨hes, halive, -⟩ := mem_rowEnemiesOf.mp hmem
        refine List.any_eq_true.mpr ⟨_, hes, ?_⟩
        simp [halive, hd1, htrig]
      · rw [if_neg hd1] at htrig
        by_cases hd2 : dir = -1
        · rw [if_pos hd2] at htrig
          replace htrig := of_decide_eq_true htrig
          have hmem : runLeft e0 (e0 :: rest) ∈ rowEnemiesOf es r := by
            rw [hrow]
            rcases runLeft_mem (e0 :: rest) e0 with h' | h'
            · rw [h']; exact List.mem_cons_self _ _
            · exact h'
          obtain ⟨hes, halive, -⟩ := mem_rowEnemiesOf.mp hmem
          refine List.any_eq_true.mpr ⟨_, hes, ?_⟩
          simp [halive, hd1, hd2, htrig]
        · rw [if_neg hd2] at htrig
          exact absurd htrig (by simp)

/-- When every alive enemy has the same displayed half width, an alive enemy
crossing the margin forces its row's extremal member across as well, so the
exhaustive check implies the per-row check. -/
theorem exhaustive_to_shouldReverse (W : ℚ) (dir : ℤ) (es : List Enemy) (hw : ℚ)
    (huni : ∀ e ∈ es, e.isAlive = true → halfWidth e = hw)
    (h : Part001.shouldReverse W dir es = true) :
    Part000.shouldReverse W dir es = true := by
  obtain ⟨e, hes, hpred⟩ := List.any_eq_true.mp h
  rw [Bool.and_eq_true] at hpred
  obtain ⟨halive, hrest⟩ := hpred
  have hrowmem : e ∈ rowEnemiesOf es e.row := mem_rowEnemiesOf.mpr ⟨hes, halive, rfl⟩
  have hrowsmem : e.row ∈ ((es.filter (fun e => e.isAlive)).map (·.row)).dedup :=
    List.mem_dedup.mpr (List.mem_map_of_mem _ (List.mem_filter.mpr ⟨hes, halive⟩))
  refine List.any_eq_true.mpr ⟨e.row, hrowsmem, ?_⟩
  unfold rowEdgeTrigger
  cases hrow : rowEnemiesOf es e.row with
  | nil => rw [hrow] at hrowmem; cases hrowmem
  | cons e0 rest =>
      rw [hrow] at hrowmem
      simp only [rowEdgeTriggerAux]
      rcases Bool.or_eq_true_iff.mp hrest with hright | hleft
      · rw [Bool.and_eq_true] at hright
        have hd1 : dir = 1 := of_decide_eq_true hright.1
        have htest : W - edgeMargin ≤ e.x + halfWidth e := of_decide_eq_true hright.2
        rw [if_pos hd1]
        apply decide_eq_true
        have hrmmem : runRight e0 (e0 :: rest) ∈ e0 :: rest := by
          rcases runRight_mem (e0 :: rest) e0 with h' | h'
          · rw [h']; exact List.mem_cons_self _ _
          · exact h'
        have hrmrow : runRight e0 (e0 :: rest) ∈ rowEnemiesOf es e.row := by
          rw [hrow]; exact hrmmem
        obtain ⟨hrm_es, hrm_alive, -⟩ := mem_rowEnemiesOf.mp hrmrow
        have h1 : halfWidth e = hw := huni e hes halive
        have h2 : halfWidth (runRight e0 (e0 :: rest)) = hw := huni _ hrm_es hrm_alive
        have h3 : e.x ≤ (runRight e0 (e0 :: rest)).x := mem_le_runRight (e0 :: rest) e0 e hrowmem
        rw [h2]
        rw [h1] at htest
        linarith
      · rw [Bool.and_eq_true] at hleft
        have hd2 : dir = -1 := of_decide_eq_true hleft.1
        have htest : e.x - halfWidth e ≤ edgeMargin := of_decide_eq_true hleft.2
        have hd1 : ¬(dir = 1) := by rw [hd2]; decide
        rw [if_neg hd1, if_pos hd2]
        apply decide_eq_true
        have hlmmem : runLeft e0 (e0 :: rest) ∈ e0 :: rest := by
          rcases runLeft_mem (e0 :: rest) e0 with h' | h'
          · rw [h']; exact List.mem_cons_self _ _
          · exact h'
        have hlmrow : runLeft e0 (e0 :: rest) ∈ rowEnemiesOf es e.row := by
          rw [hrow]; exact hlmmem
        obtain ⟨hlm_es, hlm_alive, -⟩ := mem_rowEnemiesOf.mp hlmrow
        have h1 : halfWidth e = hw := huni e hes halive
        have h2 : halfWidth (runLeft e0 (e0 :: rest)) = hw := huni _ hlm_es hlm_alive
        have h3 : (runLeft e0 (e0 :: rest)).x ≤ e.x := runLeft_le_mem (e0 :: rest) e0 e hrowmem
        rw [h2]
        rw [h1] at htest
        linarith

/-- Equality of the two edge checks under a uniform half width. -/
theorem shouldReverse_agree (W : ℚ) (dir : ℤ) (es : List Enemy) (hw : ℚ)
    (huni : ∀ e ∈ es, e.isAlive = true → halfWidth e = hw) :
    Part000.shouldReverse W dir es = Part001.shouldReverse W dir es := by
  cases h1 : Part001.shouldReverse W dir es with
  | true => exact exhaustive_to_shouldReverse W dir es hw huni h1
  | false =>
      cases h0 : Part000.shouldReverse W dir es with
      | false => rfl
      | true =>
          have := shouldReverse_to_exhaustive W dir es h0
          rw [h1] at this
          cases this

/-- Position effect of the part_000 movement loop on one enemy. -/
theorem moveEnemy_y_000 (down : Bool) (dir : ℤ) (speed : ℚ) (e : Enemy) :
    (moveEnemy down dir speed e).y =
      if e.isAlive then e.y + (if down then ENEMY_DOWN_STEP else 0) else e.y := by
  unfold moveEnemy
  by_cases ha : e.isAlive <;> simp [ha] <;> split <;> rfl

/-- Vertical-velocity effect of the part_000 movement loop on one enemy. -/
theorem moveEnemy_vy_000 (down : Bool) (dir : ℤ) (speed : ℚ) (e : Enemy) :
    (moveEnemy down dir speed e).vy =
      if e.isAlive && e.hasBody then 0 else e.vy := by
  unfold moveEnemy
  by_cases ha : e.isAlive <;> by_cases hb : e.hasBody <;> simp [ha, hb]

end Part000

namespace Part001

/-- Position effect of the part_001 movement loop on one enemy. -/
theorem moveEnemy_y_001 (down : Bool) (dir : ℤ) (speed : ℚ) (e : Enemy) :
    (moveEnemy down dir speed e).y =
      if e.isAlive then e.y + (if down then ENEMY_DOWN_STEP else 0) else e.y := by
  unfold moveEnemy
  by_cases ha : e.isAlive <;> simp [ha] <;> split <;> rfl

/-- Vertical-velocity effect of the part_001 movement loop on one enemy. -/
theorem moveEnemy_vy_001 (down : Bool) (dir : ℤ) (speed : ℚ) (e : Enemy) :
    (moveEnemy down dir speed e).vy =
      if e.isAlive && e.hasBody && e.bodyEnable then 0 else e.vy := by
  unfold moveEnemy
  by_cases ha : e.isAlive <;> by_cases hb : e.hasBody <;>
    by_cases hn : e.bodyEnable <;> simp [ha, hb, hn]

end Part001

/-! Concrete enemy data used by witnesses and counterexamples. -/

/-- An alive, active enemy of width `w` at `(x, 0)` in row `r`, scale 1. -/
def mkTestEnemy (x w : ℚ) (r : ℕ) : Enemy :=
  { x := x, y := 0, vx := 0, vy := 0, width := w, height := 10,
    scaleX := 1, scaleY := 1, row := r, isAlive := true, isActive := true,
    isSuperAlien := false, hasBody := true, bodyEnable := true,
    lastShotTime := 0 }

/-- Two alive enemies in the same row with different widths: the wider one
(half width 300, right edge 399) sits slightly left of the narrower one
(half width 5, right edge 105), so on a 400-wide screen moving right only
the wide enemy's edge is inside the 30-pixel margin while the row's
rightmost-by-center member is the narrow one. -/
def mixedWidthEnemies : List Enemy :=
  [mkTestEnemy 100 10 0, mkTestEnemy 99 600 0]

/-- Two alive enemies of equal width 20 in distinct rows; at screen width
400 moving right, the first one's right edge (370) reaches the margin. -/
def uniformEnemies : List Enemy :=
  [mkTestEnemy 360 20 0, mkTestEnemy 50 20 1]

/-- C9 counterexample: with heterogeneous widths and scales the per-row
extremal-by-center check of part_000 misses an alive enemy whose edge is
inside the margin, while the exhaustive per-enemy check of part_001 sees
it; the two checks disagree on this formation, refuting the claimed
equivalence for arbitrary widths. -/
theorem C9_edge_checks_differ_cex :
    Part000.shouldReverse 400 1 mixedWidthEnemies ≠
      Part001.shouldReverse 400 1 mixedWidthEnemies := by
  norm_num [Part000.shouldReverse, Part000.rowEdgeTrigger, Part000.rowEdgeTriggerAux,
    Part000.rowEnemiesOf, Part000.runRight, Part000.runLeft, Part001.shouldReverse,
    mixedWidthEnemies, mkTestEnemy, halfWidth, edgeMargin, List.dedup]

/-- C9 (amended): when every alive enemy has the same displayed half width
`width * scaleX / 2` — as in the game whenever both sprite textures share
one width, since all enemies get one scale — the per-row extremal edge
check of `part_000.handleEnemyMovement` signals a reversal exactly when the
exhaustive check over every alive enemy (`part_001.handleEnemyMovement`)
does, for every direction value. -/
theorem C9_perRow_eq_exhaustive_of_uniform_width (W : ℚ) (dir : ℤ)
    (es : List Enemy) (hw : ℚ)
    (huni : ∀ e ∈ es, e.isAlive = true → halfWidth e = hw) :
    Part000.shouldReverse W dir es = Part001.shouldReverse W dir es :=
  Part000.shouldReverse_agree W dir es hw huni

/-- Witness for C9 at a concrete uniform-width formation. -/
theorem C9_perRow_eq_exhaustive_witness :
    Part000.shouldReverse 400 1 uniformEnemies =
      Part001.shouldReverse 400 1 uniformEnemies :=
  C9_perRow_eq_exhaustive_of_uniform_width 400 1 uniformEnemies 10
    (by norm_num [uniformEnemies, mkTestEnemy, halfWidth])

/-- C1 counterexample: the formation moves right and an alive enemy's right
edge (399) lies within the 30-pixel margin of the right boundary of a
400-wide screen, yet `handleEnemyMovement` neither flips the direction nor
increments the speed, because the crossing enemy is not its row's
rightmost-by-center member. -/
theorem C1_edge_reversal_cex :
    mixedWidthEnemies.any
        (fun e => e.isAlive && decide (400 - edgeMargin ≤ e.x + halfWidth e)) = true ∧
    (Part000.handleEnemyMovement 400 ⟨1, 30, mixedWidthEnemies⟩).enemyDirection = 1 ∧
    (Part000.handleEnemyMovement 400 ⟨1, 30, mixedWidthEnemies⟩).enemySpeed = 30 := by
  norm_num [Part000.handleEnemyMovement, Part000.newDirection, Part000.newSpeed,
    Part000.reversal, Part000.shouldReverse, Part000.rowEdgeTrigger,
    Part000.rowEdgeTriggerAux, Part000.rowEnemiesOf, Part000.runRight,
    Part000.runLeft, mixedWidthEnemies, mkTestEnemy, halfWidth, edgeMargin,
    List.dedup]

/-- C1 (amended): when all alive enemies share one displayed half width, a
tick in which some alive enemy's leading edge lies within the 30-pixel
margin (the exhaustive crossing predicate, for either direction) flips the
shared direction, adds `DIFFICULTY_ENEMY_SPEED_INCREASE` to the shared
speed once, and steps every alive enemy down by `ENEMY_DOWN_STEP` exactly
once; in a tick with no such crossing, direction and speed are unchanged
and no enemy's y-position changes. -/
theorem C1_edge_reversal (W : ℚ) (s : MoveState) (hw : ℚ)
    (hne : s.enemies ≠ [])
    (huni : ∀ e ∈ s.enemies, e.isAlive = true → halfWidth e = hw) :
    (Part001.shouldReverse W s.enemyDirection s.enemies = true →
      (Part000.handleEnemyMovement W s).enemyDirection = -s.enemyDirection ∧
      (Part000.handleEnemyMovement W s).enemySpeed =
        s.enemySpeed + DIFFICULTY_ENEMY_SPEED_INCREASE ∧
      (Part000.handleEnemyMovement W s).enemies =
        s.enemies.map
          (Part000.moveEnemy true (Part000.newDirection W s) (Part000.newSpeed W s)) ∧
      (∀ e ∈ s.enemies, e.isAlive = true →
        (Part000.moveEnemy true (Part000.newDirection W s) (Part000.newSpeed W s) e).y =
          e.y + ENEMY_DOWN_STEP)) ∧
    (Part001.shouldReverse W s.enemyDirection s.enemies = false →
      (Part000.handleEnemyMovement W s).enemyDirection = s.enemyDirection ∧
      (Part000.handleEnemyMovement W s).enemySpeed = s.enemySpeed ∧
      (Part000.handleEnemyMovement W s).enemies =
        s.enemies.map
          (Part000.moveEnemy false (Part000.newDirection W s) (Part000.newSpeed W s)) ∧
      (∀ e ∈ s.enemies,
        (Part000.moveEnemy false (Part000.newDirection W s) (Part000.newSpeed W s) e).y = e.y)) := by
  have hrev : Part000.reversal W s = Part001.shouldReverse W s.enemyDirection s.enemies :=
    Part000.shouldReverse_agree W s.enemyDirection s.enemies hw huni
  have hempty : s.enemies.isEmpty = false := by
    cases hE : s.enemies.isEmpty
    · rfl
    · exact absurd (List.isEmpty_iff.mp hE) hne
  constructor
  · intro hx
    have hdown : Part000.reversal W s = true := by rw [hrev, hx]
    refine ⟨?_, ?_, ?_, ?_⟩
    · simp [Part000.handleEnemyMovement, hempty, Part000.newDirection, hdown]
    · simp [Part000.handleEnemyMovement, hempty, Part000.newSpeed, hdown]
    · simp [Part000.handleEnemyMovement, hempty, hdown]
    · intro e _ halive
      rw [Part000.moveEnemy_y_000]
      simp [halive]
  · intro hx
    have hdown : Part000.reversal W s = false := by rw [hrev, hx]
    refine ⟨?_, ?_, ?_, ?_⟩
    · simp [Part000.handleEnemyMovement, hempty, Part000.newDirection, hdown]
    · simp [Part000.handleEnemyMovement, hempty, Part000.newSpeed, hdown]
    · simp [Part000.handleEnemyMovement, hempty, hdown]
    · intro e _
      rw [Part000.moveEnemy_y_000]
      split <;> simp

/-- Witness for C1: on the concrete uniform formation the crossing holds
and the reversal effects follow. -/
theorem C1_edge_reversal_witness :
    (Part000.handleEnemyMovement 400 ⟨1, 30, uniformEnemies⟩).enemyDirection = -1 ∧
    (Part000.handleEnemyMovement 400 ⟨1, 30, uniformEnemies⟩).enemySpeed =
      30 + DIFFICULTY_ENEMY_SPEED_INCREASE := by
  have h := C1_edge_reversal 400 ⟨1, 30, uniformEnemies⟩ 10
    (by simp [uniformEnemies, mkTestEnemy])
    (by norm_num [uniformEnemies, mkTestEnemy, halfWidth])
  have h1 := h.1
    (by norm_num [Part001.shouldReverse, uniformEnemies, mkTestEnemy, halfWidth, edgeMargin])
  exact ⟨h1.1, h1.2.1⟩

/-- C8: in both variants' movement updates, every alive enemy (with its
physics body present and enabled) has its vertical velocity set to exactly
zero, and its y-position changes only by the single discrete
`ENEMY_DOWN_STEP` applied when the tick reverses the formation — never
through a vertical velocity.  The moved enemy is the one the update stores
back into the enemy list. -/
theorem C8_vertical_velocity_zero (W : ℚ) (s : MoveState) (e : Enemy)
    (he : e ∈ s.enemies) (halive : e.isAlive = true)
    (hbody : e.hasBody = true) (hen : e.bodyEnable = true) :
    ((Part000.moveEnemy (Part000.reversal W s) (Part000.newDirection W s)
        (Part000.newSpeed W s) e).vy = 0 ∧
     (Part000.moveEnemy (Part000.reversal W s) (Part000.newDirection W s)
        (Part000.newSpeed W s) e).y =
       e.y + (if Part000.reversal W s then ENEMY_DOWN_STEP else 0) ∧
     Part000.moveEnemy (Part000.reversal W s) (Part000.newDirection W s)
        (Part000.newSpeed W s) e ∈ (Part000.handleEnemyMovement W s).enemies) ∧
    ((Part001.moveEnemy (Part001.reversal W s) (Part001.newDirection W s)
        (Part001.newSpeed W s) e).vy = 0 ∧
     (Part001.moveEnemy (Part001.reversal W s) (Part001.newDirection W s)
        (Part001.newSpeed W s) e).y =
       e.y + (if Part001.reversal W s then ENEMY_DOWN_STEP else 0) ∧
     Part001.moveEnemy (Part001.reversal W s) (Part001.newDirection W s)
        (Part001.newSpeed W s) e ∈ (Part001.handleEnemyMovement W s).enemies) := by
  have hempty : s.enemies.isEmpty = false := by
    cases hE : s.enemies.isEmpty
    · rfl
    · exact absurd (List.isEmpty_iff.mp hE) (List.ne_nil_of_mem he)
  refine ⟨⟨?_, ?_, ?_⟩, ?_, ?_, ?_⟩
  · rw [Part000.moveEnemy_vy_000]; simp [halive, hbody]
  · rw [Part000.moveEnemy_y_000]; simp [halive]
  · simp only [Part000.handleEnemyMovement, hempty, Bool.false_eq_true, if_false]
    exact List.mem_map_of_mem _ he
  · rw [Part001.moveEnemy_vy_001]; simp [halive, hbody, hen]
  · rw [Part001.moveEnemy_y_001]; simp [halive]
  · simp only [Part001.handleEnemyMovement, hempty, Bool.false_eq_true, if_false]
    exact List.mem_map_of_mem _ he

/-- Witness for C8 at a concrete one-enemy formation. -/
theorem C8_vertical_velocity_zero_witness :
    (Part000.moveEnemy (Part000.reversal 400 ⟨1, 30, uniformEnemies⟩)
       (Part000.newDirection 400 ⟨1, 30, uniformEnemies⟩)
       (Part000.newSpeed 400 ⟨1, 30, uniformEnemies⟩) (mkTestEnemy 360 20 0)).vy = 0 ∧
    (Part001.moveEnemy (Part001.reversal 400 ⟨1, 30, uniformEnemies⟩)
       (Part001.newDirection 400 ⟨1, 30, uniformEnemies⟩)
       (Part001.newSpeed 400 ⟨1, 30, uniformEnemies⟩) (mkTestEnemy 360 20 0)).vy = 0 := by
  have h := C8_vertical_velocity_zero 400 ⟨1, 30, uniformEnemies⟩ (mkTestEnemy 360 20 0)
    (by simp [uniformEnemies]) (by simp [mkTestEnemy]) (by simp [mkTestEnemy])
    (by simp [mkTestEnemy])
  exact ⟨h.1.1, h.2.1⟩

/-- C7: collecting a power-up at time `t` activates double shot with the
absolute expiry `t + POWERUP_DURATION`; a later expiry check leaves double
shot active exactly on ticks whose clock is strictly below the expiry; and
any collection — also while already buffed — overwrites the expiry with the
new collection time plus `POWERUP_DURATION` (refresh, not extend). -/
theorem C7_powerup_expiry (s : PlayerState) (hfield : s.powerUpOnField = true) :
    (collectPowerUp s).playerDoubleShot = true ∧
    (collectPowerUp s).powerUpEndTime = s.now + POWERUP_DURATION ∧
    (∀ t : ℚ, (checkPowerUpExpiration { collectPowerUp s with now := t }).playerDoubleShot =
        decide (t < s.now + POWERUP_DURATION)) ∧
    (∀ s2 : PlayerState, s2.powerUpOnField = true →
        (collectPowerUp s2).powerUpEndTime = s2.now + POWERUP_DURATION) := by
  refine ⟨by simp [collectPowerUp, hfield], by simp [collectPowerUp, hfield], ?_, ?_⟩
  · intro t
    by_cases hle : s.now + POWERUP_DURATION ≤ t
    · simp [checkPowerUpExpiration, collectPowerUp, hfield, hle, not_lt.mpr hle]
    · simp [checkPowerUpExpiration, collectPowerUp, hfield, hle, lt_of_not_le hle]
  · intro s2 h2
    simp [collectPowerUp, h2]

/-- A player state with a power-up on the field at time 0. -/
def c7base : PlayerState :=
  { now := 0, playerShootTimer := 0, playerDoubleShot := false,
    powerUpEndTime := 0, powerUpOnField := true, playerBullets := [],
    playerY := 1440, playerHalfHeight := 50 }

/-- Witness for C7: collect at t = 0, check a tick just before expiry. -/
theorem C7_powerup_expiry_witness :
    (collectPowerUp c7base).playerDoubleShot = true ∧
    (checkPowerUpExpiration { collectPowerUp c7base with now := 9999 }).playerDoubleShot =
      decide ((9999 : ℚ) < c7base.now + POWERUP_DURATION) := by
  have h := C7_powerup_expiry c7base rfl
  exact ⟨h.1, h.2.2.1 9999⟩

/-- C3: `hitPlayer` sets the `playerHitProcessing` flag before mutating
anything else and every invocation made while the flag is set is a complete
no-op, so two bullet overlaps processed in one tick decrement lives by
exactly 1; the flag's release is only the scheduled 500 ms callback. -/
theorem C3_hit_reentrancy (s : CollisionState)
    (hproc : s.playerHitProcessing = false)
    (hp : s.playerPresent = true)
    (hl : 0 < s.lives) :
    (hitPlayer true s).playerHitProcessing = true ∧
    (hitPlayer true s).lives = s.lives - 1 ∧
    (hitPlayer true s).hitResetAt = some (s.now + 500) ∧
    hitPlayer true (hitPlayer true s) = hitPlayer true s ∧
    (hitPlayer true (hitPlayer true s)).lives = s.lives - 1 ∧
    (∀ (b : Bool) (t : CollisionState), t.playerHitProcessing = true →
        hitPlayer b t = t) ∧
    (hitProcessingRelease (hitPlayer true s)).playerHitProcessing = false := by
  have hblock : ∀ (b : Bool) (t : CollisionState), t.playerHitProcessing = true →
      hitPlayer b t = t := by
    intro b t ht
    simp [hitPlayer, ht]
  have hnotle : ¬s.lives ≤ 0 := not_le.mpr hl
  have hmain : hitPlayer true s =
      (let u : CollisionState := { s with playerHitProcessing := true, lives := s.lives - 1 }
       let v : CollisionState := if u.lives ≤ 0 then { u with gameActive := false } else u
       { v with hitResetAt := some (v.now + 500) }) := by
    unfold hitPlayer
    rw [if_neg (by simp [hproc]), if_neg (by simp), if_neg (by simp [hp]),
      if_neg hnotle]
  have hflag : (hitPlayer true s).playerHitProcessing = true := by
    rw [hmain]
    dsimp only
    split <;> rfl
  have hlives : (hitPlayer true s).lives = s.lives - 1 := by
    rw [hmain]
    dsimp only
    split <;> rfl
  have hsecond : hitPlayer true (hitPlayer true s) = hitPlayer true s :=
    hblock true _ hflag
  refine ⟨hflag, hlives, ?_, hsecond, by rw [hsecond, hlives], hblock, ?_⟩
  · rw [hmain]
    dsimp only
    split <;> rfl
  · simp [hitProcessingRelease]

/-- A collision state mid-session: 3 lives, no hit being processed. -/
def c3state : CollisionState :=
  { now := 100, score := 10, lives := 3, gameActive := true,
    playerPresent := true, playerY := 1440, playerHeight := 100,
    playerHitProcessing := false, hitResetAt := none, enemies := [],
    rowsCanShoot := ∅ }

/-- Witness for C3: two same-tick hits cost exactly one life. -/
theorem C3_hit_reentrancy_witness :
    (hitPlayer true (hitPlayer true c3state)).lives = c3state.lives - 1 ∧
    (hitPlayer true c3state).playerHitProcessing = true := by
  have h := C3_hit_reentrancy c3state rfl rfl (by decide)
  exact ⟨h.2.2.2.2.1, h.1⟩

/-- Every session step keeps the score non-decreasing and the lives
non-increasing. -/
theorem sessionStep_mono {s t : CollisionState} (h : SessionStep s t) :
    s.score ≤ t.score ∧ t.lives ≤ s.lives := by
  cases h with
  | hitEnemy b e s =>
      unfold hitEnemy
      dsimp only
      split_ifs <;> refine ⟨?_, ?_⟩ <;> (try dsimp only) <;> omega
  | hitPlayer b s =>
      unfold hitPlayer
      dsimp only
      split_ifs <;> refine ⟨?_, ?_⟩ <;> (try dsimp only) <;> omega
  | checkGameOver s =>
      unfold checkGameOver
      split_ifs <;> exact ⟨le_refl _, le_refl _⟩
  | hitRelease s => exact ⟨le_refl _, le_refl _⟩

/-- C4 (amended): over any session-step sequence the score never decreases
and the lives never increase; a valid enemy kill adds its positive fixed
reward (7 for super, 5 for regular); and whenever a hit brings lives to 0
the session flag is cleared in that very call.  (The session can also end
with positive lives through the enemy-breach check — see the
counterexample.) -/
theorem C4_session_monotone :
    (∀ s t : CollisionState, Relation.ReflTransGen SessionStep s t →
       s.score ≤ t.score ∧ t.lives ≤ s.lives) ∧
    (∀ (e : Enemy) (s : CollisionState), e.isActive = true →
       (hitEnemy true e s).score = s.score + (if e.isSuperAlien then 7 else 5)) ∧
    (∀ (b : Bool) (s : CollisionState), 0 < s.lives → (hitPlayer b s).lives ≤ 0 →
       (hitPlayer b s).gameActive = false) := by
  refine ⟨?_, ?_, ?_⟩
  · intro s t h
    induction h with
    | refl => exact ⟨le_refl _, le_refl _⟩
    | tail _ hstep ih =>
        have h2 := sessionStep_mono hstep
        exact ⟨le_trans ih.1 h2.1, le_trans h2.2 ih.2⟩
  · intro e s hact
    simp [hitEnemy, hact]
  · intro b s hl hle
    unfold hitPlayer at hle ⊢
    split_ifs at hle ⊢ with h1 h2 h3 h4
    · exfalso; omega
    · exfalso; omega
    · exfalso; omega
    · exfalso; omega
    · dsimp only at hle ⊢
      split_ifs at hle ⊢ with h5
      · rfl
      · exfalso
        dsimp only at hle
        omega

/-- An enemy whose bottom edge has crossed the game-over threshold. -/
def breachEnemy : Enemy :=
  { x := 100, y := 2000, vx := 0, vy := 0, width := 20, height := 10,
    scaleX := 1, scaleY := 1, row := 0, isAlive := true, isActive := true,
    isSuperAlien := false, hasBody := true, bodyEnable := true,
    lastShotTime := 0 }

/-- A session with all 3 lives left but an enemy at the breach line. -/
def breachState : CollisionState :=
  { now := 0, score := 0, lives := 3, gameActive := true,
    playerPresent := true, playerY := 1440, playerHeight := 100,
    playerHitProcessing := false, hitResetAt := none,
    enemies := [breachEnemy], rowsCanShoot := ∅ }

/-- C4 counterexample: `checkGameOver` ends the session (clears
`gameActive`) while lives are still 3, because an alive enemy's bottom edge
reached the threshold just above the player — so the session does not end
exactly once lives reach 0. -/
theorem C4_session_end_cex :
    breachState.gameActive = true ∧ breachState.lives = 3 ∧
    (checkGameOver breachState).gameActive = false ∧
    (checkGameOver breachState).lives = 3 := by
  refine ⟨rfl, rfl, ?_, ?_⟩ <;>
    norm_num [checkGameOver, breachState, breachEnemy, halfHeight]

/-- Witness for C4 applied over a concrete one-step session. -/
theorem C4_session_monotone_witness :
    breachState.score ≤ (hitEnemy true breachEnemy breachState).score ∧
    (hitEnemy true breachEnemy breachState).lives ≤ breachState.lives :=
  C4_session_monotone.1 breachState _
    (Relation.ReflTransGen.single (SessionStep.hitEnemy true breachEnemy breachState))

/-- C10: when a power-up is still on the field at a spawn-count milestone,
the milestone step performs no spawn yet still advances
`lastPowerUpSpawnRow` to the milestone; the spawned-row counter increases
strictly on every row spawn, so that milestone can never trigger a spawn at
any later step — the spawn is skipped, not deferred. -/
theorem C10_powerup_milestone_skip (s : SpawnState)
    (hactive : s.powerUpOnField = true)
    (hmod : (s.spawnedRowCount + 1) % POWERUP_SPAWN_AFTER_ROWS = 0)
    (hneq : s.spawnedRowCount + 1 ≠ s.lastPowerUpSpawnRow) :
    (afterRowSpawned s).powerUpOnField = true ∧
    (afterRowSpawned s).lastPowerUpSpawnRow = s.spawnedRowCount + 1 ∧
    (afterRowSpawned s).spawnedRowCount = s.spawnedRowCount + 1 ∧
    spawnEventAt s = none ∧
    (∀ t : SpawnState, (afterRowSpawned t).spawnedRowCount = t.spawnedRowCount + 1) ∧
    (∀ t : SpawnState, s.spawnedRowCount + 1 ≤ t.spawnedRowCount →
       spawnEventAt t ≠ some (s.spawnedRowCount + 1)) := by
  have hcount : ∀ t : SpawnState, (afterRowSpawned t).spawnedRowCount = t.spawnedRowCount + 1 := by
    intro t
    simp only [afterRowSpawned, spawnPowerUp]
    split
    · split <;> rfl
    · rfl
  refine ⟨?_, ?_, hcount s, ?_, hcount, ?_⟩
  · simp [afterRowSpawned, spawnPowerUp, hactive, hmod, hneq]
  · simp [afterRowSpawned, spawnPowerUp, hactive, hmod, hneq]
  · simp [spawnEventAt, hactive]
  · intro t ht hcontra
    unfold spawnEventAt at hcontra
    split at hcontra
    · rw [Option.some_inj] at hcontra
      omega
    · exact Option.noConfusion hcontra

/-- A spawn state at the ninth row with an uncollected power-up afield. -/
def c10state : SpawnState :=
  { spawnedRowCount := 9, lastPowerUpSpawnRow := 0, nextRowIndex := 14,
    powerUpOnField := true, rowsCanShoot := ∅ }

/-- Witness for C10 at the concrete tenth-row milestone. -/
theorem C10_powerup_milestone_skip_witness :
    (afterRowSpawned c10state).powerUpOnField = true ∧
    (afterRowSpawned c10state).lastPowerUpSpawnRow = 10 ∧
    spawnEventAt c10state = none := by
  have h := C10_powerup_milestone_skip c10state rfl (by decide) (by decide)
  exact ⟨h.1, h.2.1, h.2.2.2.1⟩

/-- Splitting a list by a boolean predicate preserves its length. -/
theorem length_filter_add_length_filter_not {α : Type} (l : List α) (p : α → Bool) :
    (l.filter p).length + (l.filter (fun a => !(p a))).length = l.length := by
  induction l with
  | nil => rfl
  | cons a l ih =>
      cases h : p a <;> simp [List.filter_cons, h] <;> omega

/-- Filtering `range n` by membership in a duplicate-free list of values
below `n` keeps exactly that many elements. -/
theorem filter_range_mem_length (pos : List ℕ) (n : ℕ) (hnd : pos.Nodup)
    (hlt : ∀ c ∈ pos, c < n) :
    ((List.range n).filter (fun c => decide (c ∈ pos))).length = pos.length := by
  have h1 : ((List.range n).filter (fun c => decide (c ∈ pos))).Nodup :=
    (List.nodup_range n).filter _
  have h2 : ((List.range n).filter (fun c => decide (c ∈ pos))).toFinset = pos.toFinset := by
    ext c
    simp only [List.mem_toFinset, List.mem_filter, List.mem_range, decide_eq_true_eq]
    exact ⟨fun h => h.2, fun h => ⟨hlt c h, h⟩⟩
  calc ((List.range n).filter (fun c => decide (c ∈ pos))).length
      = ((List.range n).filter (fun c => decide (c ∈ pos))).toFinset.card :=
        (List.toFinset_card_of_nodup h1).symm
    _ = pos.toFinset.card := by rw [h2]
    _ = pos.length := List.toFinset_card_of_nodup hnd

/-- C6: a row generated by the wave spawner carries exactly
`min (1 + floor(rowsSpawnedSoFar / threshold)) ENEMY_COLS` super enemies
(the quota, capped at the column count), the remaining columns being
regular enemies, and the super enemies sit at pairwise distinct x-positions
(distinct columns), for any shuffle of the column list. -/
theorem C6_super_quota (dims : Bool → ℚ × ℚ) (sc : ℚ) (rowIndex : ℕ)
    (startX y : ℚ) (spawnedRowCount : ℕ) (shuffledCols : List ℕ)
    (hperm : shuffledCols.Perm (List.range ENEMY_COLS)) :
    ((spawnEnemyRowCentered dims sc rowIndex startX y
        (newRowSuperCols spawnedRowCount shuffledCols)).filter
          (fun e => e.isSuperAlien)).length =
      min (numSuperAliens spawnedRowCount) ENEMY_COLS ∧
    ((spawnEnemyRowCentered dims sc rowIndex startX y
        (newRowSuperCols spawnedRowCount shuffledCols)).filter
          (fun e => !e.isSuperAlien)).length =
      ENEMY_COLS - min (numSuperAliens spawnedRowCount) ENEMY_COLS ∧
    (((spawnEnemyRowCentered dims sc rowIndex startX y
        (newRowSuperCols spawnedRowCount shuffledCols)).filter
          (fun e => e.isSuperAlien)).map (fun e => e.x)).Nodup := by
  set pos := newRowSuperCols spawnedRowCount shuffledCols with hpos
  have hshufnd : shuffledCols.Nodup := hperm.nodup_iff.mpr (List.nodup_range _)
  have hnd : pos.Nodup := hshufnd.sublist (List.take_sublist _ _)
  have hlt : ∀ c ∈ pos, c < ENEMY_COLS := by
    intro c hc
    exact List.mem_range.mp (hperm.mem_iff.mp (List.mem_of_mem_take hc))
  have hlen : pos.length = min (numSuperAliens spawnedRowCount) ENEMY_COLS := by
    rw [hpos, newRowSuperCols, List.length_take, hperm.length_eq, List.length_range]
  have hcompS : ((fun (e : Enemy) => e.isSuperAlien) ∘
      spawnedEnemyAt dims sc rowIndex startX y pos) = (fun c => decide (c ∈ pos)) := by
    funext c
    simp [spawnedEnemyAt, Function.comp]
  have hfilt : (spawnEnemyRowCentered dims sc rowIndex startX y pos).filter
      (fun e => e.isSuperAlien) =
      ((List.range ENEMY_COLS).filter (fun c => decide (c ∈ pos))).map
        (spawnedEnemyAt dims sc rowIndex startX y pos) := by
    rw [spawnEnemyRowCentered, List.filter_map, hcompS]
  have hsuplen : ((spawnEnemyRowCentered dims sc rowIndex startX y pos).filter
      (fun e => e.isSuperAlien)).length =
      min (numSuperAliens spawnedRowCount) ENEMY_COLS := by
    rw [hfilt, List.length_map, filter_range_mem_length pos ENEMY_COLS hnd hlt, hlen]
  refine ⟨hsuplen, ?_, ?_⟩
  · have htot := length_filter_add_length_filter_not
      (spawnEnemyRowCentered dims sc rowIndex startX y pos) (fun e => e.isSuperAlien)
    have hrowlen : (spawnEnemyRowCentered dims sc rowIndex startX y pos).length =
        ENEMY_COLS := by
      rw [spawnEnemyRowCentered, List.length_map, List.length_range]
    omega
  · rw [hfilt, List.map_map]
    have hcompX : ((fun (e : Enemy) => e.x) ∘
        spawnedEnemyAt dims sc rowIndex startX y pos) =
        (fun c : ℕ => startX + (c : ℚ) * ENEMY_SPACING) := by
      funext c
      simp [spawnedEnemyAt, Function.comp]
    rw [hcompX]
    refine List.Nodup.map ?_ ((List.nodup_range _).filter _)
    intro a b hab
    have hsp : (ENEMY_SPACING : ℚ) ≠ 0 := by norm_num [ENEMY_SPACING]
    have h1 : (a : ℚ) * ENEMY_SPACING = (b : ℚ) * ENEMY_SPACING := by
      dsimp only at hab
      linarith
    exact_mod_cast mul_right_cancel₀ hsp h1

/-- Texture sizes used by concrete spawns: both sprites 40 x 40. -/
def testDims : Bool → ℚ × ℚ := fun _ => (40, 40)

/-- Witness for C6: the sixth spawned row (quota 2) of 6 columns has
exactly 2 super enemies and 4 regular enemies at distinct positions. -/
theorem C6_super_quota_witness :
    ((spawnEnemyRowCentered testDims 1 6 20 (-150)
        (newRowSuperCols 5 (List.range ENEMY_COLS))).filter
          (fun e => e.isSuperAlien)).length = 2 ∧
    ((spawnEnemyRowCentered testDims 1 6 20 (-150)
        (newRowSuperCols 5 (List.range ENEMY_COLS))).filter
          (fun e => !e.isSuperAlien)).length = 4 ∧
    (((spawnEnemyRowCentered testDims 1 6 20 (-150)
        (newRowSuperCols 5 (List.range ENEMY_COLS))).filter
          (fun e => e.isSuperAlien)).map (fun e => e.x)).Nodup := by
  have h := C6_super_quota testDims 1 6 20 (-150) 5 (List.range ENEMY_COLS)
    (List.Perm.refl _)
  refine ⟨?_, ?_, h.2.2⟩
  · have h1 := h.1
    norm_num [numSuperAliens, DIFFICULTY_SUPER_ALIENS_INCREASE_AFTER_LINES,
      ENEMY_COLS] at h1
    exact h1
  · have h2 := h.2.1
    norm_num [numSuperAliens, DIFFICULTY_SUPER_ALIENS_INCREASE_AFTER_LINES,
      ENEMY_COLS] at h2
    exact h2

/-- `shootFromEnemy` never touches the `rowShooting` lock. -/
theorem shootFromEnemy_rowShooting (e : Enemy) (t : ShootState) :
    (shootFromEnemy e t).rowShooting = t.rowShooting := by
  unfold shootFromEnemy addEnemyBullet
  dsimp only
  split_ifs <;> rfl

/-- `shootFromEnemy` never touches the per-row last-shot map. -/
theorem shootFromEnemy_rowLastShotTime (e : Enemy) (t : ShootState) :
    (shootFromEnemy e t).rowLastShotTime = t.rowLastShotTime := by
  unfold shootFromEnemy addEnemyBullet
  dsimp only
  split_ifs <;> rfl

/-- A valid shooter's row is deleted from `rowsCanShoot`. -/
theorem shootFromEnemy_rowsCanShoot (e : Enemy) (t : ShootState)
    (ha : e.isActive = true) (hl : e.isAlive = true) :
    (shootFromEnemy e t).rowsCanShoot = t.rowsCanShoot.erase e.row := by
  unfold shootFromEnemy addEnemyBullet
  rw [if_neg (by simp [ha, hl])]
  dsimp only
  split_ifs <;> rfl

/-- C5: whenever the shooting-row lock is free after the volley phase and
some enemy is eligible (alive, active, its row allowed and not having shot
within the minimum spacing), `handleEnemyShooting` selects exactly one
enemy: the element the random pick draws from the first
`max(1, floor(eligibleCount / 10))` entries of the shuffled eligible list.
The whole tick effect is one `shootFromEnemy` call on that enemy; its row
takes the lock, records the shot time, and leaves the eligible row set
until the next volley reset restores every row holding an alive enemy. -/
theorem C5_volley_selects_one (s : ShootState) (shuffled : List Enemy) (pick : ℕ)
    (hne : s.enemies ≠ [])
    (hlock : (volleyResetPhase s).rowShooting = none)
    (hready : eligibleEnemies (volleyResetPhase s) ≠ [])
    (hperm : shuffled.Perm (eligibleEnemies (volleyResetPhase s)))
    (hpick : pick <
      (shuffled.take (numShooters (eligibleEnemies (volleyResetPhase s)).length)).length) :
    ∃ chosen : Enemy,
      (shuffled.take (numShooters (eligibleEnemies (volleyResetPhase s)).length))[pick]? =
        some chosen ∧
      chosen ∈ shuffled.take (numShooters (eligibleEnemies (volleyResetPhase s)).length) ∧
      chosen ∈ eligibleEnemies (volleyResetPhase s) ∧
      handleEnemyShooting shuffled pick s =
        shootFromEnemy chosen
          { volleyResetPhase s with
              rowShooting := some chosen.row,
              rowLastShotTime :=
                setRowLastShot (volleyResetPhase s).rowLastShotTime chosen.row
                  (volleyResetPhase s).now,
              rowShootResetAt :=
                some ((volleyResetPhase s).now + minTimeBetweenRowShots) } ∧
      (handleEnemyShooting shuffled pick s).rowShooting = some chosen.row ∧
      chosen.row ∉ (handleEnemyShooting shuffled pick s).rowsCanShoot ∧
      rowLastShot (handleEnemyShooting shuffled pick s).rowLastShotTime chosen.row =
        (volleyResetPhase s).now ∧
      (∀ t : ShootState, t.enemyShootTimer ≠ 0 →
        ENEMY_SHOOT_INTERVAL ≤ t.now - t.enemyShootTimer →
        (volleyResetPhase t).rowsCanShoot =
          ((t.enemies.filter (fun e => e.isAlive)).map (·.row)).toFinset) := by
  have hempty : s.enemies.isEmpty = false := by
    cases hE : s.enemies.isEmpty
    · rfl
    · exact absurd (List.isEmpty_iff.mp hE) hne
  have hreadyE : (eligibleEnemies (volleyResetPhase s)).isEmpty = false := by
    cases hE : (eligibleEnemies (volleyResetPhase s)).isEmpty
    · rfl
    · exact absurd (List.isEmpty_iff.mp hE) hready
  have hsome := List.getElem?_eq_getElem hpick
  have hmemtake := List.getElem?_mem hsome
  have hchosen_elig :
      (shuffled.take (numShooters (eligibleEnemies (volleyResetPhase s)).length))[pick]
        ∈ eligibleEnemies (volleyResetPhase s) :=
    hperm.mem_iff.mp (List.mem_of_mem_take hmemtake)
  have hpred := (List.mem_filter.mp hchosen_elig).2
  rw [Bool.and_eq_true, Bool.and_eq_true, Bool.and_eq_true] at hpred
  obtain ⟨⟨⟨halive, hactive⟩, -⟩, -⟩ := hpred
  have heq : handleEnemyShooting shuffled pick s =
      shootFromEnemy
        (shuffled.take (numShooters (eligibleEnemies (volleyResetPhase s)).length))[pick]
        { volleyResetPhase s with
            rowShooting :=
              some (shuffled.take
                (numShooters (eligibleEnemies (volleyResetPhase s)).length))[pick].row,
            rowLastShotTime :=
              setRowLastShot (volleyResetPhase s).rowLastShotTime
                (shuffled.take
                  (numShooters (eligibleEnemies (volleyResetPhase s)).length))[pick].row
                (volleyResetPhase s).now,
            rowShootResetAt :=
              some ((volleyResetPhase s).now + minTimeBetweenRowShots) } := by
    unfold handleEnemyShooting
    simp only [hempty, Bool.false_eq_true, if_false, hlock, hreadyE, hsome]
  refine ⟨_, hsome, hmemtake, hchosen_elig, heq, ?_, ?_, ?_, ?_⟩
  · rw [heq, shootFromEnemy_rowShooting]
  · rw [heq, shootFromEnemy_rowsCanShoot _ _ hactive halive]
    exact Finset.not_mem_erase _ _
  · rw [heq, shootFromEnemy_rowLastShotTime]
    simp [rowLastShot, setRowLastShot, List.lookup]
  · intro t ht1 ht2
    unfold volleyResetPhase
    rw [if_neg ht1, if_pos ht2]

/-- One eligible shooter for the concrete C5 scenario. -/
def c5enemy : Enemy := mkTestEnemy 100 10 0

/-- An enemy-shooting state with a free lock, one alive enemy whose row may
shoot and last shot long ago, mid-volley (timer not yet expired). -/
def c5state : ShootState :=
  { now := 10000, enemyShootTimer := 9000, enemies := [c5enemy],
    enemyBullets := [], rowsCanShoot := {0}, rowShooting := none,
    rowLastShotTime := [], rowShootResetAt := none }

/-- Witness for C5: on the concrete state exactly the single eligible enemy
fires; its row takes the lock and leaves the eligible set. -/
theorem C5_volley_selects_one_witness :
    (handleEnemyShooting [c5enemy] 0 c5state).rowShooting = some 0 ∧
    (0 : ℕ) ∉ (handleEnemyShooting [c5enemy] 0 c5state).rowsCanShoot := by
  have helig_eq : eligibleEnemies (volleyResetPhase c5state) = [c5enemy] := by
    norm_num [eligibleEnemies, volleyResetPhase, c5state, c5enemy, mkTestEnemy,
      rowLastShot, minTimeBetweenRowShots, ENEMY_SHOOT_INTERVAL]
  obtain ⟨chosen, hsome, hmem, helig, heq, hrow, hnot, hlast, hreset⟩ :=
    C5_volley_selects_one c5state [c5enemy] 0
      (by simp [c5state])
      (by norm_num [volleyResetPhase, c5state, ENEMY_SHOOT_INTERVAL])
      (by rw [helig_eq]; simp)
      (by rw [helig_eq])
      (by rw [helig_eq]; norm_num [numShooters, DIFFICULTY_ENEMY_SHOOT_PERCENTAGE])
  have hch : chosen = c5enemy := by
    have h1 : chosen ∈ [c5enemy] := List.mem_of_mem_take hmem
    simpa using h1
  have hrow0 : chosen.row = 0 := by rw [hch]; rfl
  rw [hrow0] at hrow hnot
  exact ⟨hrow, hnot⟩

/-- The expiry check never touches the bullet list. -/
theorem checkPowerUpExpiration_bullets (t : PlayerState) :
    (checkPowerUpExpiration t).playerBullets = t.playerBullets := by
  unfold checkPowerUpExpiration
  split_ifs <;> rfl

/-- One shooting pass never pushes the player-bullet count above 6. -/
theorem handlePlayerShooting_le_six (s : PlayerState)
    (h : s.playerBullets.length ≤ 6) :
    (handlePlayerShooting s).playerBullets.length ≤ 6 := by
  unfold handlePlayerShooting spawnPlayerBullet
  dsimp only
  split_ifs <;> simp_all [List.length_append] <;> omega

/-- Without double shot one shooting pass keeps the count at most 3. -/
theorem handlePlayerShooting_le_three (s : PlayerState)
    (hds : s.playerDoubleShot = false) (h : s.playerBullets.length ≤ 3) :
    (handlePlayerShooting s).playerBullets.length ≤ 3 := by
  unfold handlePlayerShooting spawnPlayerBullet
  dsimp only
  split_ifs <;> simp_all [List.length_append] <;> omega

/-- C2 (amended): a full player-subsystem tick preserves the hard cap of 6
concurrent player bullets, a shooting pass without double shot preserves
the cap of 3, and a firing double-shot pass adds two bullets only while a
slot remains for the pair's second bullet (one when exactly one slot is
free, none at the cap).  `shootFromEnemy` preserves the enemy cap of 29,
and a super enemy's volley adds two bullets only when fewer than 28 exist
— the first bullet is withheld at 28 so that the paired second (checked
against 29) has its reserved slot.  (The per-owner cap of 3 does not hold
across a double-shot expiry; see the counterexample.) -/
theorem C2_bullet_caps :
    (∀ (dt : ℚ) (s : PlayerState), s.playerBullets.length ≤ 6 →
       (playerTick dt s).playerBullets.length ≤ 6) ∧
    (∀ s : PlayerState, s.playerDoubleShot = false → s.playerBullets.length ≤ 3 →
       (handlePlayerShooting s).playerBullets.length ≤ 3) ∧
    (∀ s : PlayerState, s.playerDoubleShot = true → s.playerShootTimer ≠ 0 →
       PLAYER_SHOOT_INTERVAL ≤ s.now - s.playerShootTimer →
       (handlePlayerShooting s).playerBullets.length =
         s.playerBullets.length +
           (if s.playerBullets.length + 1 < 6 then 2
            else if s.playerBullets.length < 6 then 1 else 0)) ∧
    (∀ (e : Enemy) (s : ShootState), s.enemyBullets.length ≤ 29 →
       (shootFromEnemy e s).enemyBullets.length ≤ 29) ∧
    (∀ (e : Enemy) (s : ShootState), e.isSuperAlien = true → e.isActive = true →
       e.isAlive = true →
       (shootFromEnemy e s).enemyBullets.length =
         s.enemyBullets.length +
           (if s.enemyBullets.length < 28 then 2
            else if s.enemyBullets.length < 29 then 1 else 0)) := by
  refine ⟨?_, handlePlayerShooting_le_three, ?_, ?_, ?_⟩
  · intro dt s h
    unfold playerTick
    rw [checkPowerUpExpiration_bullets]
    refine le_trans (le_trans (List.length_filter_le _ _) (le_refl _)) ?_
    apply handlePlayerShooting_le_six
    simpa [physicsAdvance] using h
  · intro s hds ht0 hint
    unfold handlePlayerShooting spawnPlayerBullet
    rw [if_neg ht0]
    dsimp only
    rw [if_pos hint]
    simp only [hds]
    split_ifs <;> simp_all [List.length_append] <;> omega
  · intro e s h
    unfold shootFromEnemy addEnemyBullet
    dsimp only
    split_ifs <;> simp_all [List.length_append] <;> omega
  · intro e s hsup hact halive
    unfold shootFromEnemy addEnemyBullet
    rw [if_neg (by simp [hact, halive])]
    simp only [hsup]
    split_ifs <;> simp_all [List.length_append] <;> omega

/-- A player state mid-session: a power-up afield, no bullets, last shot at
t = 500. -/
def c2base : PlayerState :=
  { now := 1000, playerShootTimer := 500, playerDoubleShot := false,
    powerUpEndTime := 0, powerUpOnField := true, playerBullets := [],
    playerY := 1440, playerHalfHeight := 50 }

/-- The state two ticks after collecting the power-up at t = 1000: the
second tick lands exactly on the expiry instant t = 11000. -/
def c2final : PlayerState := playerTick 750 (playerTick 9250 (collectPowerUp c2base))

/-- C2 counterexample: `handlePlayerShooting` runs before
`checkPowerUpExpiration` inside `update()`, so on the expiry tick the
player still fires a double-shot pair; at that tick boundary four bullets
coexist while the double-shot flag is already false, exceeding the claimed
cap of 3 for inactive double shot. -/
theorem C2_player_cap_cex :
    c2final.playerDoubleShot = false ∧
    c2final.playerBullets.length = 4 ∧
    ¬(c2final.playerBullets.length ≤ if c2final.playerDoubleShot then 6 else 3) := by
  norm_num [c2final, playerTick, physicsAdvance, handlePlayerShooting,
    cleanupPlayerBullets, checkPowerUpExpiration, collectPowerUp,
    spawnPlayerBullet, playerBulletSpawnY, c2base, PLAYER_SHOOT_INTERVAL,
    POWERUP_DURATION, BULLET_SPEED]

/-- Witness for C2 at concrete states with empty bullet groups. -/
theorem C2_bullet_caps_witness :
    (playerTick 16 c7base).playerBullets.length ≤ 6 ∧
    (shootFromEnemy c5enemy c5state).enemyBullets.length ≤ 29 :=
  ⟨C2_bullet_caps.1 16 c7base (by simp [c7base]),
   C2_bullet_caps.2.2.2.1 c5enemy c5state (by simp [c5state])⟩

end CryptoInvaders
